import Mathlib

/-!
Shallow embedding of `process_email_body` from `src/arxiv_parser.py`.

The Python function parses the plain-text body of an arXiv digest email:
it splits the body on a fixed 78-dash delimiter line, scans each section
line by line (tracking the current title, link, abstract lines and an
`in_abstract` flag), and keeps the `{title, link}` records whose
lower-cased title or abstract contains one of the lower-cased keywords.

Modelling notes (the digests are plain ASCII text):
* Python `str.strip()` removes the ASCII whitespace characters
  space, tab, newline, carriage return, vertical tab and form feed;
  `isPySpace` is that set.
* Python `str.lower()` is modelled by ASCII lowering (`Char.toLower`).
* Python `str.splitlines()` is modelled for the line breaks
  `\r\n`, `\r` and `\n`.
* Python `str.split(sep)` for the non-empty fixed delimiter is modelled
  by `pySplit` (leftmost, non-overlapping occurrences; fuel-based
  recursion with enough fuel for the whole input).
* `re` character classes `\s`, `\S`, `\d` are modelled over ASCII.
-/

/-- The character set removed by Python `str.strip()` (ASCII range). -/
def isPySpace (c : Char) : Bool :=
  c == ' ' || c == '\t' || c == '\n' || c == '\r' || c == '\x0b' || c == '\x0c'

/-- Python `line.strip()`. -/
def pyStrip (s : String) : String :=
  String.mk (((s.data.dropWhile isPySpace).reverse.dropWhile isPySpace).reverse)

/-- Python `s.lower()` (ASCII lowering). -/
def pyLower (s : String) : String :=
  String.mk (s.data.map Char.toLower)

/-- Python `s[n:]` on a string: drop the first `n` characters. -/
def strDrop (s : String) (n : Nat) : String :=
  String.mk (s.data.drop n)

/-- Test `listStartsWith s p` : does `s` start with `p`?  (Python `startswith`.) -/
def listStartsWith : List Char → List Char → Bool
  | _, [] => true
  | [], _ :: _ => false
  | c :: cs, p :: ps => c == p && listStartsWith cs ps

/-- Test `listOccurs p s` : does the pattern `p` occur contiguously in `s`?
(Python substring test `p in s`.) -/
def listOccurs (pat : List Char) : List Char → Bool
  | [] => pat.isEmpty
  | c :: rest => listStartsWith (c :: rest) pat || listOccurs pat rest

/-- Python `pat in s` for strings. -/
def strContains (s pat : String) : Bool :=
  listOccurs pat.data s.data

/-- Accumulator-based core of `str.splitlines()` for `\r\n`, `\r`, `\n`.
`acc` holds the characters of the current line in reverse. -/
def splitLinesAux : List Char → List Char → List String
  | acc, [] => if acc.isEmpty then [] else [String.mk acc.reverse]
  | acc, '\r' :: '\n' :: rest => String.mk acc.reverse :: splitLinesAux [] rest
  | acc, '\r' :: rest => String.mk acc.reverse :: splitLinesAux [] rest
  | acc, '\n' :: rest => String.mk acc.reverse :: splitLinesAux [] rest
  | acc, c :: rest => splitLinesAux (c :: acc) rest

/-- Python `section.splitlines()`. -/
def pySplitLines (s : String) : List String :=
  splitLinesAux [] s.data

/-- Core of Python `body.split(sep)` for a non-empty `sep`: split on
leftmost, non-overlapping occurrences.  The fuel argument only forces
termination; `pySplit` supplies more fuel than there are characters, so
the fuel never runs out. -/
def splitOnFuel (sep : List Char) : Nat → List Char → List Char → List (List Char)
  | 0, acc, rest => [acc.reverse ++ rest]
  | _ + 1, acc, [] => [acc.reverse]
  | n + 1, acc, c :: rest =>
    if listStartsWith (c :: rest) sep then
      acc.reverse :: splitOnFuel sep n [] (List.drop (sep.length - 1) rest)
    else
      splitOnFuel sep n (c :: acc) rest

/-- Python `body.split(sep)` for the non-empty fixed delimiter. -/
def pySplit (body sep : String) : List String :=
  (splitOnFuel sep.data (body.data.length + 1) [] body.data).map String.mk

/-- The constant `paper_delimiter` from the source: a line of 78 `-` characters. -/
def paper_delimiter : String :=
  "------------------------------------------------------------------------------"

/-- The alternatives of `header_regex`
`^(arXiv:|Date:|Title:|Authors:|Categories:|Comments:|Journal-ref:|DOI:|ACM-class:|MSC-class:)`. -/
def header_labels : List String :=
  ["arXiv:", "Date:", "Title:", "Authors:", "Categories:", "Comments:",
   "Journal-ref:", "DOI:", "ACM-class:", "MSC-class:"]

/-- Python `header_regex.match(line)` as a Boolean: the regex is anchored
at the start of the string and case-insensitive, so it succeeds exactly
when some alternative is a case-insensitive prefix of `line`. -/
def header_regex_match (line : String) : Bool :=
  header_labels.any fun p => listStartsWith (pyLower line).data (pyLower p).data

/-- Python `line.lower().startswith("title:")`. -/
def title_start (line : String) : Bool :=
  listStartsWith (pyLower line).data "title:".data

/-- Consume an exact literal from the front of `cs`; `none` on mismatch. -/
def dropLit : List Char → List Char → Option (List Char)
  | cs, [] => some cs
  | [], _ :: _ => none
  | c :: cs, p :: ps => if c == p then dropLit cs ps else none

/-- Match `link_regex` = `\\ \( (https?://arxiv\.org/abs/\S+) ,\s*\d+kb\)`
anchored at the start of `cs`, returning capture group 1.

The whole capture group is one contiguous run of non-whitespace
characters, and right after the group the regex demands a literal space,
so the greedy `\S+` is forced to end exactly at the maximal
non-whitespace run; likewise `\s*` and `\d+` are forced maximal because
the characters that follow them (`,`-side digit, `k`) are not in their
classes.  Backtracking therefore never changes the outcome and the match
is computed deterministically. -/
def link_match_at (cs : List Char) : Option String :=
  match dropLit cs ['\\', ' ', '(', ' '] with
  | none => none
  | some afterOpen =>
    let run := afterOpen.takeWhile (fun c => !isPySpace c)
    let rest := afterOpen.dropWhile (fun c => !isPySpace c)
    let tail :=
      match dropLit run "https://arxiv.org/abs/".data with
      | some t => some t
      | none => dropLit run "http://arxiv.org/abs/".data
    match tail with
    | none => none
    | some t =>
      if t.isEmpty then none
      else
        match dropLit rest [' ', ','] with
        | none => none
        | some afterComma =>
          let afterWs := afterComma.dropWhile isPySpace
          let digits := afterWs.takeWhile Char.isDigit
          let afterDigits := afterWs.dropWhile Char.isDigit
          if digits.isEmpty then none
          else
            match dropLit afterDigits ['k', 'b', ')'] with
            | none => none
            | some _ => some (String.mk run)

/-- Leftmost search: try `link_match_at` at every start position. -/
def link_search_aux : List Char → Option String
  | [] => none
  | c :: rest =>
    match link_match_at (c :: rest) with
    | some u => some u
    | none => link_search_aux rest

/-- Python `link_regex.search(line)`, returning `group(1)` on success. -/
def link_regex_search (line : String) : Option String :=
  link_search_aux line.data

/-- The per-section scanning state of the Python loop:
`current_title`, `current_link`, `abstract_lines`, `in_abstract`. -/
structure ScanState where
  title : Option String
  link : Option String
  abstract_lines : List String
  in_abstract : Bool
deriving Repr, DecidableEq

/-- The state at the top of each section:
`current_title = None`, `current_link = None`, `abstract_lines = []`,
`in_abstract = False`. -/
def initState : ScanState :=
  { title := none, link := none, abstract_lines := [], in_abstract := false }

/-- Python truthiness of `current_title` (`None` and `""` are falsy). -/
def truthyOpt : Option String → Bool
  | none => false
  | some s => !(s == "")

/-- The body of the Python `for i, line in enumerate(lines)` loop. -/
def scanLine (st : ScanState) (rawLine : String) : ScanState :=
  let line := pyStrip rawLine
  if line == "" then st
  else if title_start line then
    { st with title := some (pyStrip (strDrop line 6)), in_abstract := true }
  else
    match link_regex_search line with
    | some u => { st with link := some u, in_abstract := false }
    | none =>
      if st.in_abstract && truthyOpt st.title && !header_regex_match line then
        { st with abstract_lines := st.abstract_lines ++ [line] }
      else st

/-- Run the line loop over a list of lines. -/
def scanLines (st : ScanState) (lines : List String) : ScanState :=
  List.foldl scanLine st lines

/-- One entry of the returned list: `{"title": ..., "link": ...}`. -/
structure PaperRecord where
  title : String
  link : String
deriving Repr, DecidableEq

/-- The Python keyword loop with its `break`: `True` as soon as some
keyword is a substring of the lower-cased title or abstract. -/
def keywordHit : List String → String → String → Bool
  | [], _, _ => false
  | k :: rest, titleLower, abstractLower =>
    if strContains titleLower k || strContains abstractLower k then true
    else keywordHit rest titleLower abstractLower

/-- The scan state reached at the end of a section's line loop. -/
def sectionScan (rawSection : String) : ScanState :=
  scanLines initState (pySplitLines (pyStrip rawSection))

/-- Python `current_abstract = " ".join(abstract_lines).strip()` for a section. -/
def sectionAbstract (rawSection : String) : String :=
  pyStrip (String.intercalate " " (sectionScan rawSection).abstract_lines)

/-- The records contributed by one section of the split body: empty
unless the stripped section starts with `\`, all of title / abstract /
link are truthy, and some keyword hits. -/
def processSection (lowerKeywords : List String) (rawSection : String) :
    List PaperRecord :=
  if !(listStartsWith (pyStrip rawSection).data ['\\']) then []
  else
    match (sectionScan rawSection).title, (sectionScan rawSection).link with
    | some t, some l =>
      if !(t == "") && !(sectionAbstract rawSection == "") && !(l == "") then
        if keywordHit lowerKeywords (pyLower t) (pyLower (sectionAbstract rawSection)) then
          [{ title := t, link := l }]
        else []
      else []
    | _, _ => []

/-- Python `process_email_body(body, keywords)`: split on the delimiter, lower
the keywords once, and accumulate the matching records section by
section in order. -/
def process_email_body (body : String) (keywords : List String) :
    List PaperRecord :=
  let lowerKeywords := keywords.map pyLower
  (pySplit body paper_delimiter).foldl
    (fun acc sec => acc ++ processSection lowerKeywords sec) []

/-- Scenario A input from the specification: one well-formed paper
announcement followed by the delimiter line. -/
def scenario_a_body : String :=
  "\\ arXiv:2301.00001\nTitle: Graph Learning\nAuthors: A, B\nComments: 5 pages\nA new method for graphs.\nWe show results.\n\\ ( http://arxiv.org/abs/2301.00001 , 120kb)\n"
    ++ paper_delimiter ++ "\n"

/-- A candidate block with two lines matching `link_regex`, the later of
which also starts with `Title:`. -/
def two_link_block : String :=
  "\\\nTitle: T\nsome words here\n\\ ( http://arxiv.org/abs/a , 1kb)\nTitle: x \\ ( http://arxiv.org/abs/b , 2kb)"

/-! ## Lemmas about one step of the line loop -/

theorem scanLine_blank (st : ScanState) (l : String) (h : pyStrip l = "") :
    scanLine st l = st := by
  simp [scanLine, h]

theorem scanLine_title (st : ScanState) (l : String)
    (h : title_start (pyStrip l) = true) :
    scanLine st l =
      { st with title := some (pyStrip (strDrop (pyStrip l) 6)), in_abstract := true } := by
  have hne : pyStrip l ≠ "" := by
    intro he
    rw [he] at h
    exact absurd h (by decide)
  simp [scanLine, h, hne]

theorem scanLine_link (st : ScanState) (l : String) (u : String)
    (hT : title_start (pyStrip l) = false)
    (hL : link_regex_search (pyStrip l) = some u) :
    scanLine st l = { st with link := some u, in_abstract := false } := by
  have hne : pyStrip l ≠ "" := by
    intro he
    rw [he] at hL
    rw [(by decide : link_regex_search "" = none)] at hL
    exact Option.noConfusion hL
  simp [scanLine, hT, hL, hne]

theorem scanLine_other (st : ScanState) (l : String)
    (hne : pyStrip l ≠ "")
    (hT : title_start (pyStrip l) = false)
    (hL : link_regex_search (pyStrip l) = none) :
    scanLine st l =
      if st.in_abstract && truthyOpt st.title && !header_regex_match (pyStrip l) then
        { st with abstract_lines := st.abstract_lines ++ [pyStrip l] }
      else st := by
  simp [scanLine, hT, hL, hne]

theorem scanLine_preserves_title (st : ScanState) (l : String)
    (hT : title_start (pyStrip l) = false) :
    (scanLine st l).title = st.title := by
  by_cases hne : pyStrip l = ""
  · rw [scanLine_blank st l hne]
  · cases hL : link_regex_search (pyStrip l) with
    | some u => rw [scanLine_link st l u hT hL]
    | none =>
      rw [scanLine_other st l hne hT hL]
      split <;> rfl

theorem scanLine_preserves_link (st : ScanState) (l : String)
    (h : title_start (pyStrip l) = true ∨ link_regex_search (pyStrip l) = none) :
    (scanLine st l).link = st.link := by
  by_cases hne : pyStrip l = ""
  · rw [scanLine_blank st l hne]
  · cases h with
    | inl hT => rw [scanLine_title st l hT]
    | inr hL =>
      by_cases hT : title_start (pyStrip l) = true
      · rw [scanLine_title st l hT]
      · rw [scanLine_other st l hne (Bool.eq_false_iff.mpr hT) hL]
        split <;> rfl

theorem scanLine_abstract_cases (st : ScanState) (l : String) :
    (scanLine st l).abstract_lines = st.abstract_lines ∨
      ((scanLine st l).abstract_lines = st.abstract_lines ++ [pyStrip l] ∧
        header_regex_match (pyStrip l) = false) := by
  by_cases hne : pyStrip l = ""
  · left; rw [scanLine_blank st l hne]
  · by_cases hT : title_start (pyStrip l) = true
    · left; rw [scanLine_title st l hT]
    · cases hL : link_regex_search (pyStrip l) with
      | some u => left; rw [scanLine_link st l u (Bool.eq_false_iff.mpr hT) hL]
      | none =>
        rw [scanLine_other st l hne (Bool.eq_false_iff.mpr hT) hL]
        split
        · next hcond =>
          right
          refine ⟨rfl, ?_⟩
          have h3 := (Bool.and_eq_true _ _).mp hcond |>.2
          exact Bool.not_eq_true' .. |>.mp h3
        · left; rfl

/-! ## Lemmas about the whole line loop -/

theorem scanLines_nil (st : ScanState) : scanLines st [] = st := rfl

theorem scanLines_cons (st : ScanState) (l : String) (ls : List String) :
    scanLines st (l :: ls) = scanLines (scanLine st l) ls := rfl

theorem scanLines_append (st : ScanState) (l1 l2 : List String) :
    scanLines st (l1 ++ l2) = scanLines (scanLines st l1) l2 := by
  simp [scanLines, List.foldl_append]

theorem scanLines_preserves_title (ls : List String) (st : ScanState)
    (h : ∀ l ∈ ls, title_start (pyStrip l) = false) :
    (scanLines st ls).title = st.title := by
  induction ls generalizing st with
  | nil => rfl
  | cons l rest ih =>
    rw [scanLines_cons, ih (scanLine st l) fun x hx => h x (List.mem_cons_of_mem _ hx)]
    exact scanLine_preserves_title st l (h l (List.mem_cons_self _ _))

theorem scanLines_preserves_link (ls : List String) (st : ScanState)
    (h : ∀ l ∈ ls,
      title_start (pyStrip l) = true ∨ link_regex_search (pyStrip l) = none) :
    (scanLines st ls).link = st.link := by
  induction ls generalizing st with
  | nil => rfl
  | cons l rest ih =>
    rw [scanLines_cons, ih (scanLine st l) fun x hx => h x (List.mem_cons_of_mem _ hx)]
    exact scanLine_preserves_link st l (h l (List.mem_cons_self _ _))

theorem scanLines_abstract_extend (ls : List String) (st : ScanState) :
    ∃ t, (scanLines st ls).abstract_lines = st.abstract_lines ++ t := by
  induction ls generalizing st with
  | nil => exact ⟨[], by simp [scanLines_nil]⟩
  | cons l rest ih =>
    obtain ⟨t, ht⟩ := ih (scanLine st l)
    rcases scanLine_abstract_cases st l with h | ⟨h, _⟩
    · exact ⟨t, by rw [scanLines_cons, ht, h]⟩
    · exact ⟨pyStrip l :: t, by rw [scanLines_cons, ht, h, List.append_assoc]; rfl⟩

theorem scanLines_abstract_mem (ls : List String) (st : ScanState) (x : String)
    (hx : x ∈ (scanLines st ls).abstract_lines) :
    x ∈ st.abstract_lines ∨
      (header_regex_match x = false ∧ ∃ l ∈ ls, x = pyStrip l) := by
  induction ls generalizing st with
  | nil => exact Or.inl hx
  | cons l rest ih =>
    rw [scanLines_cons] at hx
    rcases ih (scanLine st l) hx with hmem | ⟨hh, l', hl', hxl⟩
    · rcases scanLine_abstract_cases st l with h | ⟨h, hH⟩
      · rw [h] at hmem
        exact Or.inl hmem
      · rw [h] at hmem
        rcases List.mem_append.mp hmem with h1 | h2
        · exact Or.inl h1
        · have hxl : x = pyStrip l := by simpa using h2
          exact Or.inr ⟨hxl ▸ hH, l, List.mem_cons_self _ _, hxl⟩
    · exact Or.inr ⟨hh, l', List.mem_cons_of_mem _ hl', hxl⟩

/-! ## Lemmas about the section loop -/

theorem foldl_append_eq_flatMap {α β : Type} (f : α → List β)
    (l : List α) (acc : List β) :
    l.foldl (fun a s => a ++ f s) acc = acc ++ l.flatMap f := by
  induction l generalizing acc with
  | nil => simp
  | cons s rest ih =>
    rw [List.foldl_cons, ih (acc ++ f s)]
    simp

theorem processSection_nil_keywords (sec : String) : processSection [] sec = [] := by
  unfold processSection
  split
  · rfl
  · split
    · split
      · rfl
      · rfl
    · rfl

/-! ## The claims -/

set_option maxRecDepth 8000

/-- C1: on the Scenario A document, processing with the keyword list
`["graph"]` returns exactly one record, with title `"Graph Learning"`
and link `"http://arxiv.org/abs/2301.00001"`. -/
theorem c1_scenario_a :
    process_email_body scenario_a_body ["graph"] =
      [{ title := "Graph Learning", link := "http://arxiv.org/abs/2301.00001" }] := by
  decide

/-- C5: for every keyword list and every candidate block, the block
contributes at most one record to the output: the keyword loop stops at
the first hit, so a record matching several keywords still appears
exactly once for that block. -/
theorem c5_at_most_one_per_block (lowerKeywords : List String) (sec : String) :
    (processSection lowerKeywords sec).length ≤ 1 := by
  unfold processSection
  split
  · simp
  · split
    · split
      · split <;> simp
      · simp
    · simp

/-- C6: the output list is exactly the in-order concatenation of the
records contributed by each delimiter-separated section of the body, so
records from an earlier block always precede records from a later block;
no reordering, sorting, or ranking occurs. -/
theorem c6_order_preserved (body : String) (keywords : List String) :
    process_email_body body keywords =
      (pySplit body paper_delimiter).flatMap
        (processSection (keywords.map pyLower)) := by
  unfold process_email_body
  rw [foldl_append_eq_flatMap]
  rfl

/-- C7: `process_email_body` is total by construction (it is a plain Lean
function on strings), and both degenerate inputs resolve to the empty
list: an empty keyword list yields no matches for any body, and the
empty body yields no matches for any keywords. -/
theorem c7_degenerate_inputs (body : String) (keywords : List String) :
    process_email_body body [] = [] ∧ process_email_body "" keywords = [] := by
  constructor
  · unfold process_email_body
    rw [List.map_nil, foldl_append_eq_flatMap]
    simp [processSection_nil_keywords]
  · rfl

/-- C8: if a Title line occurs in a block and no later line of the block
is a Title line, the final title is the trimmed remainder (after the
6-character `title:` label) of that last Title line — later occurrences
overwrite earlier ones (last-wins). -/
theorem c8_last_title_wins (st : ScanState) (ls1 ls2 : List String) (L : String)
    (hL : title_start (pyStrip L) = true)
    (h2 : ∀ l ∈ ls2, title_start (pyStrip l) = false) :
    (scanLines st (ls1 ++ L :: ls2)).title =
      some (pyStrip (strDrop (pyStrip L) 6)) := by
  rw [scanLines_append, scanLines_cons,
    scanLines_preserves_title ls2 _ h2, scanLine_title _ L hL]

/-- Witness for C8: a block with two Title lines ends with the second
one's trimmed remainder as its title. -/
theorem c8_last_title_wins_witness :
    (scanLines initState ["Title: First", "Title: Second", "plain words"]).title =
      some "Second" :=
  (c8_last_title_wins initState ["Title: First"] ["plain words"] "Title: Second"
    (by decide) (by decide)).trans (by decide)

/-- Counterexample to C10: in `two_link_block` exactly two lines match
`link_regex`; the last of them captures `http://arxiv.org/abs/b`, yet
the produced record's link is `http://arxiv.org/abs/a`, because the last
matching line starts with `Title:` and the title branch takes
precedence over the link branch. -/
theorem c10_counterexample :
    processSection ["t"] two_link_block =
      [{ title := "x \\ ( http://arxiv.org/abs/b , 2kb)",
         link := "http://arxiv.org/abs/a" }] ∧
    link_regex_search (pyStrip "Title: x \\ ( http://arxiv.org/abs/b , 2kb)") =
      some "http://arxiv.org/abs/b" ∧
    link_regex_search (pyStrip "\\ ( http://arxiv.org/abs/a , 1kb)") =
      some "http://arxiv.org/abs/a" ∧
    "http://arxiv.org/abs/a" ≠ "http://arxiv.org/abs/b" := by
  decide

/-- C10 (amended): among the lines of a block that match the
reference-link pattern *and are not recognized as Title lines*, the last
one wins: its captured URL is the final link.  (A line that matches the
pattern but starts with `Title:` is handled by the title branch and
never sets the link.) -/
theorem c10_last_link_wins (st : ScanState) (ls1 ls2 : List String)
    (L : String) (u : String)
    (hL : link_regex_search (pyStrip L) = some u)
    (hT : title_start (pyStrip L) = false)
    (h2 : ∀ l ∈ ls2,
      title_start (pyStrip l) = true ∨ link_regex_search (pyStrip l) = none) :
    (scanLines st (ls1 ++ L :: ls2)).link = some u := by
  rw [scanLines_append, scanLines_cons,
    scanLines_preserves_link ls2 _ h2, scanLine_link _ L u hT hL]

/-- Witness for the amended C10: with two non-Title link lines, the later
URL is kept. -/
theorem c10_last_link_wins_witness :
    (scanLines initState
      ["\\ ( http://arxiv.org/abs/a , 1kb)",
       "\\ ( http://arxiv.org/abs/b , 2kb)",
       "Title: later"]).link = some "http://arxiv.org/abs/b" :=
  c10_last_link_wins initState ["\\ ( http://arxiv.org/abs/a , 1kb)"]
    ["Title: later"] "\\ ( http://arxiv.org/abs/b , 2kb)" "http://arxiv.org/abs/b"
    (by decide) (by decide) (by decide)

/-- Counterexample to C2: the line `\ ( http://example.com/a , 10kb)` has
exactly the claimed shape `\ ( URL , NNkb)`, but since the URL does not
match `https?://arxiv\.org/abs/\S+` the link is NOT set and the line IS
appended to the abstract while collection is active. -/
theorem c2_counterexample :
    scanLine
        { title := some "T", link := none, abstract_lines := [], in_abstract := true }
        "\\ ( http://example.com/a , 10kb)" =
      { title := some "T", link := none,
        abstract_lines := ["\\ ( http://example.com/a , 10kb)"], in_abstract := true } := by
  decide

/-- C2 (amended): a line whose `link_regex` search succeeds — which
requires the URL to be `http(s)://arxiv.org/abs/` followed by non-space
characters, exactly one space before the comma and flexible whitespace
only after it — and that is not recognized as a Title line, sets the
link to the captured URL and ends collection without being appended;
a non-blank line the pattern does not match (any other URL format
included) is ordinary text: it is appended to the abstract whenever
collection is active, the title is truthy and it is not a header line. -/
theorem c2_link_pattern :
    (∀ (st : ScanState) (l u : String),
        link_regex_search (pyStrip l) = some u →
        title_start (pyStrip l) = false →
        scanLine st l = { st with link := some u, in_abstract := false }) ∧
    (∀ (st : ScanState) (l : String),
        pyStrip l ≠ "" →
        title_start (pyStrip l) = false →
        link_regex_search (pyStrip l) = none →
        header_regex_match (pyStrip l) = false →
        st.in_abstract = true →
        truthyOpt st.title = true →
        scanLine st l =
          { st with abstract_lines := st.abstract_lines ++ [pyStrip l] }) := by
  constructor
  · intro st l u hL hT
    exact scanLine_link st l u hT hL
  · intro st l hne hT hL hH hin htr
    have hc : (st.in_abstract && truthyOpt st.title
        && !header_regex_match (pyStrip l)) = true := by
      rw [hin, htr, hH]
      rfl
    rw [scanLine_other st l hne hT hL, if_pos hc]

/-- Witness for the amended C2: a well-formed arXiv link line sets the
link and is not appended; a plain text line is appended. -/
theorem c2_link_pattern_witness :
    link_regex_search "\\ ( http://arxiv.org/abs/1 , 9kb)" =
      some "http://arxiv.org/abs/1" ∧
    scanLine
        { title := some "T", link := none, abstract_lines := [], in_abstract := true }
        "\\ ( http://arxiv.org/abs/1 , 9kb)" =
      { title := some "T", link := some "http://arxiv.org/abs/1",
        abstract_lines := [], in_abstract := false } ∧
    scanLine
        { title := some "T", link := none, abstract_lines := [], in_abstract := true }
        "plain words" =
      { title := some "T", link := none,
        abstract_lines := ["plain words"], in_abstract := true } :=
  ⟨by decide,
   (c2_link_pattern.1 _ _ "http://arxiv.org/abs/1" (by decide) (by decide)).trans
     (by decide),
   (c2_link_pattern.2 _ "plain words" (by decide) (by decide) (by decide) (by decide)
     rfl (by decide)).trans (by decide)⟩

/-- C3: a block contributes a record only when the parsed title, the
joined-and-trimmed abstract and the link are all non-empty, and the
record carries exactly those title and link values — no partial record
is ever emitted. -/
theorem c3_record_requires_all_fields (lowerKeywords : List String) (sec : String)
    (r : PaperRecord) (h : r ∈ processSection lowerKeywords sec) :
    ∃ t l, (sectionScan sec).title = some t ∧ (sectionScan sec).link = some l ∧
      t ≠ "" ∧ l ≠ "" ∧ sectionAbstract sec ≠ "" ∧
      r = { title := t, link := l } := by
  unfold processSection at h
  split at h
  · exact absurd h (List.not_mem_nil r)
  · split at h
    · next t l ht hl =>
      split at h
      · next hcond =>
        split at h
        · have hr : r = { title := t, link := l } := by simpa using h
          have hc : (t ≠ "" ∧ sectionAbstract sec ≠ "") ∧ l ≠ "" := by
            simpa [Bool.and_eq_true, Bool.not_eq_true', beq_eq_false_iff_ne]
              using hcond
          exact ⟨t, l, ht, hl, hc.1.1, hc.2, hc.1.2, hr⟩
        · exact absurd h (List.not_mem_nil r)
      · exact absurd h (List.not_mem_nil r)
    · exact absurd h (List.not_mem_nil r)

/-- Witness for C3: applied to the Scenario A block and its record. -/
theorem c3_record_requires_all_fields_witness :
    ∃ t l,
      (sectionScan "\\ arXiv:2301.00001\nTitle: Graph Learning\nAuthors: A, B\nComments: 5 pages\nA new method for graphs.\nWe show results.\n\\ ( http://arxiv.org/abs/2301.00001 , 120kb)\n").title = some t ∧
      (sectionScan "\\ arXiv:2301.00001\nTitle: Graph Learning\nAuthors: A, B\nComments: 5 pages\nA new method for graphs.\nWe show results.\n\\ ( http://arxiv.org/abs/2301.00001 , 120kb)\n").link = some l ∧
      t ≠ "" ∧ l ≠ "" ∧
      sectionAbstract "\\ arXiv:2301.00001\nTitle: Graph Learning\nAuthors: A, B\nComments: 5 pages\nA new method for graphs.\nWe show results.\n\\ ( http://arxiv.org/abs/2301.00001 , 120kb)\n" ≠ "" ∧
      ({ title := "Graph Learning", link := "http://arxiv.org/abs/2301.00001" } : PaperRecord)
        = { title := t, link := l } :=
  c3_record_requires_all_fields ["graph"]
    "\\ arXiv:2301.00001\nTitle: Graph Learning\nAuthors: A, B\nComments: 5 pages\nA new method for graphs.\nWe show results.\n\\ ( http://arxiv.org/abs/2301.00001 , 120kb)\n"
    { title := "Graph Learning", link := "http://arxiv.org/abs/2301.00001" }
    (by decide)

/-- C4: a line whose stripped text starts (case-insensitively) with one
of the header labels is never appended to the abstract: one scan step on
a header line leaves the abstract buffer unchanged, and consequently
every entry of the final abstract buffer is either inherited from the
start state or the stripped text of a non-header line of the block. -/
theorem c4_header_lines_never_in_abstract :
    (∀ (st : ScanState) (l : String),
        header_regex_match (pyStrip l) = true →
        (scanLine st l).abstract_lines = st.abstract_lines) ∧
    (∀ (st : ScanState) (ls : List String) (x : String),
        x ∈ (scanLines st ls).abstract_lines →
        x ∈ st.abstract_lines ∨
          (header_regex_match x = false ∧ ∃ l ∈ ls, x = pyStrip l)) := by
  constructor
  · intro st l hH
    rcases scanLine_abstract_cases st l with h | ⟨_, hF⟩
    · exact h
    · rw [hH] at hF
      exact absurd hF (by decide)
  · intro st ls x hx
    exact scanLines_abstract_mem ls st x hx

/-- Witness for C4: a `Comments:` line between Title and link is not
appended, and a collected line is certified non-header by part two. -/
theorem c4_header_lines_never_in_abstract_witness :
    (scanLine
        { title := some "T", link := none, abstract_lines := ["x"], in_abstract := true }
        "Comments: 10 pages, 3 figures").abstract_lines = ["x"] ∧
    ("between" ∈ (["kept"] : List String) ∨
      (header_regex_match "between" = false ∧
        ∃ l ∈ ["Title: T", "between"], "between" = pyStrip l)) :=
  ⟨(c4_header_lines_never_in_abstract.1
      { title := some "T", link := none, abstract_lines := ["x"], in_abstract := true }
      "Comments: 10 pages, 3 figures" (by decide)).trans rfl,
   c4_header_lines_never_in_abstract.2
     { title := some "T", link := none, abstract_lines := ["kept"], in_abstract := true }
     ["Title: T", "between"] "between" (by decide)⟩

/-- C9: the abstract buffer is never reset — the lines collected so far
survive any further scanning — and a Title line occurring after the link
was found switches collection back on, so a following ordinary line is
appended even though the link is already set (and the link is kept). -/
theorem c9_abstract_buffer_monotone :
    (∀ (st : ScanState) (ls : List String),
        ∃ t, (scanLines st ls).abstract_lines = st.abstract_lines ++ t) ∧
    (∀ (st : ScanState) (tl ol u : String),
        st.link = some u →
        title_start (pyStrip tl) = true →
        pyStrip (strDrop (pyStrip tl) 6) ≠ "" →
        pyStrip ol ≠ "" →
        title_start (pyStrip ol) = false →
        link_regex_search (pyStrip ol) = none →
        header_regex_match (pyStrip ol) = false →
        scanLines st [tl, ol] =
          { st with title := some (pyStrip (strDrop (pyStrip tl) 6)),
                    in_abstract := true,
                    abstract_lines := st.abstract_lines ++ [pyStrip ol] } ∧
        (scanLines st [tl, ol]).link = some u) := by
  constructor
  · intro st ls
    exact scanLines_abstract_extend ls st
  · intro st tl ol u hlink hT htne hone hoT hoL hoH
    have hfull : scanLines st [tl, ol] =
        { st with title := some (pyStrip (strDrop (pyStrip tl) 6)),
                  in_abstract := true,
                  abstract_lines := st.abstract_lines ++ [pyStrip ol] } := by
      have h1 := scanLine_title st tl hT
      have hc : ((scanLine st tl).in_abstract && truthyOpt (scanLine st tl).title
          && !header_regex_match (pyStrip ol)) = true := by
        rw [h1]
        simp [truthyOpt, htne, hoH]
      show scanLine (scanLine st tl) ol = _
      rw [scanLine_other (scanLine st tl) ol hone hoT hoL, if_pos hc, h1]
    refine ⟨hfull, ?_⟩
    rw [hfull]
    exact hlink

/-- Witness for C9: growth of the buffer, and a Title line after the
link re-enabling collection on a concrete state. -/
theorem c9_abstract_buffer_monotone_witness :
    (∃ t, (scanLines
        { title := none, link := none, abstract_lines := ["kept"], in_abstract := false }
        ["Title: T", "body"]).abstract_lines = ["kept"] ++ t) ∧
    scanLines
        { title := some "Old", link := some "http://arxiv.org/abs/z",
          abstract_lines := ["early"], in_abstract := false }
        ["Title: New", "late words"] =
      { title := some "New", link := some "http://arxiv.org/abs/z",
        abstract_lines := ["early", "late words"], in_abstract := true } :=
  ⟨c9_abstract_buffer_monotone.1
     { title := none, link := none, abstract_lines := ["kept"], in_abstract := false }
     ["Title: T", "body"],
   ((c9_abstract_buffer_monotone.2
      { title := some "Old", link := some "http://arxiv.org/abs/z",
        abstract_lines := ["early"], in_abstract := false }
      "Title: New" "late words" "http://arxiv.org/abs/z"
      rfl (by decide) (by decide) (by decide) (by decide) (by decide) (by decide)).1).trans
     (by decide)⟩
